import Mathlib

/-!
# AI-Teacher: the teaching step pipeline

A shallow embedding of `src/server.js` (the step generator) and `src/script.js`
(the step player), and the properties of the pipeline proved over it.

Conventions of the embedding.

* A JavaScript string is the list of its UTF-16 code units, so `.length` is
  `List.length`, `slice(2)` is `List.drop 2` and `startsWith` is a prefix test.
* A property that may be missing (or `null`) is an `Option`; the typed records
  below follow the JSON shapes the server prompts for and the client reads.
* Every call to an external service (conversation store, upstream model,
  speech synthesizer) is answered by a field of `World` and recorded in the
  call log of the run, in program order.  A board-synthesis request and a
  speech request can also be rejected, which raises in the caller; the store
  client reports its failures in its result, and the other upstream requests
  are taken to be answered.
* Built-ins of the language runtime whose tables are not part of the
  repository (`String.prototype.toLowerCase`, `JSON.parse` on a string) are
  fields of `Runtime`.
-/

namespace AITeacher

/-! ## Strings -/

/-- A JavaScript string: its UTF-16 code units. -/
abbrev JSString := List Nat

/-- The code units of a literal whose characters all lie in the basic plane. -/
def js (s : String) : JSString := s.toList.map Char.toNat

/-- JavaScript truthiness of a string-valued property that may be missing:
`undefined`, `null` and the empty string are falsy. -/
def truthy : Option JSString → Bool
  | some (_ :: _) => true
  | _ => false

/-- White space and line terminators, the code units `String.prototype.trim` strips. -/
def isTrimmed (c : Nat) : Bool :=
  c == 0x09 || c == 0x0A || c == 0x0B || c == 0x0C || c == 0x0D || c == 0x20 ||
  c == 0xA0 || c == 0x1680 || (0x2000 ≤ c && c ≤ 0x200A) || c == 0x2028 ||
  c == 0x2029 || c == 0x202F || c == 0x205F || c == 0x3000 || c == 0xFEFF

/-- `String.prototype.trim`. -/
def trim (s : JSString) : JSString :=
  ((s.dropWhile isTrimmed).reverse.dropWhile isTrimmed).reverse

/-- Case canonicalization of an ignore-case regular expression without the
unicode flag, on the ASCII range: `a`..`z` map to `A`..`Z`.  A code unit
outside ASCII never canonicalizes to an ASCII one, so against a pattern of
ASCII characters it can be left as it is. -/
def canonicalize (c : Nat) : Nat :=
  if 97 ≤ c ∧ c ≤ 122 then c - 32 else c

/-- The literal `p` matches at the start of `t`, ignoring case. -/
def matchesAt : JSString → JSString → Bool
  | [], _ => true
  | _ :: _, [] => false
  | a :: p, b :: t => canonicalize a == canonicalize b && matchesAt p t

/-- `/(p1|p2|...)/i.test(t)` for literal alternatives: some alternative
matches at some position of `t`. -/
def regexTest (alts : List JSString) : JSString → Bool
  | [] => alts.any fun p => matchesAt p []
  | c :: cs => (alts.any fun p => matchesAt p (c :: cs)) || regexTest alts cs

/-! ## Data model -/

/-- One teaching step, as it travels from the generator to the player. -/
structure Step where
  spokenText : Option JSString
  boardLines : Option (List JSString)
  audio : Option JSString
deriving DecidableEq, Repr

/-- The value `JSON.parse` returns for a model reply, as deep as the handlers
look into it: `null`; any other value without the properties below (a
boolean, a number, a string, an array); or an object, seen through its
`steps` and `lines` (present only when array-valued) and through its own
`spokenText` and `boardLines`. -/
inductive Parsed where
  | null
  | other
  | object (steps : Option (List Step)) (lines : Option (List JSString)) (self : Step)
deriving DecidableEq, Repr

/-- The `content` property of a reply message. -/
inductive Content where
  | absent
  | null
  | text (s : JSString)
deriving DecidableEq, Repr

/-- The `message` of a choice. -/
structure ReplyMessage where
  content : Content
deriving DecidableEq, Repr

/-- An element of `choices`. -/
structure ReplyChoice where
  message : Option ReplyMessage
deriving DecidableEq, Repr

/-- The body `d` of a chat-completions response. -/
structure ReplyBody where
  choices : Option (List ReplyChoice)
  error : Bool
deriving DecidableEq, Repr

/-- A row of the `messages` table, as selected (`role, text`). -/
structure Row where
  role : JSString
  text : JSString
deriving DecidableEq, Repr

/-- A message in the upstream model's vocabulary. -/
structure HistoryMsg where
  role : JSString
  content : JSString
deriving DecidableEq, Repr

/-- Built-ins of the language runtime. -/
structure Runtime where
  toLowerCase : JSString → JSString
  toLowerCase_nil : toLowerCase [] = []
  jsonParse : JSString → Option Parsed

/-- A call to an external service, with the variable part of its request. -/
inductive Call where
  | insert (chatId role text : JSString)
  | select (chatId : JSString) (limit : Nat)
  | classify (text : Option JSString)
  | chat (profile : Option JSString) (history : List HistoryMsg) (topic : Option JSString)
  | structured (profile : Option JSString) (history : List HistoryMsg) (topic : Option JSString)
  | vision (profile : Option JSString) (history : List HistoryMsg) (question : JSString)
      (image : JSString)
  | board (spoken : JSString)
  | speech (text : Option JSString)
deriving DecidableEq, Repr

/-- The external services, each a function of the variable part of its
request.  `boardRejects` and `speechRejects` tell whether the board-synthesis
request, or the speech request, for an input is rejected (the service cannot
be reached, or fails) instead of answered by `board`, or `speech`. -/
structure World where
  select : JSString → Nat → Option (List Row)
  classify : Option JSString → ReplyBody
  chat : Option JSString → List HistoryMsg → Option JSString → ReplyBody
  structured : Option JSString → List HistoryMsg → Option JSString → ReplyBody
  vision : Option JSString → List HistoryMsg → JSString → JSString → ReplyBody
  board : JSString → ReplyBody
  boardRejects : JSString → Bool
  speech : Option JSString → JSString
  speechRejects : Option JSString → Bool

/-! ## Runs: a call log and a result -/

/-- The exceptions the handlers can raise. -/
inductive JsError where
  | typeError
  | syntaxError
  | rejected
deriving DecidableEq, Repr

/-- How a computation ends. -/
inductive Outcome (α : Type) where
  | ok (a : α)
  | threw (e : JsError)
deriving DecidableEq, Repr

namespace Outcome

/-- Sequencing: an exception ends the computation. -/
def andThen {α β : Type} (o : Outcome α) (f : α → Outcome β) : Outcome β :=
  match o with
  | .ok a => f a
  | .threw e => .threw e

/-- The statement `try { o } catch (e) { h e }` around code that calls no service. -/
def tryCatch {α : Type} (o : Outcome α) (h : JsError → α) : α :=
  match o with
  | .ok a => a
  | .threw e => h e

end Outcome

instance : Monad Outcome where
  pure := Outcome.ok
  bind := Outcome.andThen

/-- A run of server code: the external calls it made, in order, and its outcome. -/
structure Run (α : Type) where
  calls : List Call
  result : Outcome α

namespace Run

/-- A run that makes no call. -/
def ret {α : Type} (a : α) : Run α := ⟨[], .ok a⟩

/-- Sequencing: the calls of the first run, then those of the continuation. -/
def andThen {α β : Type} (m : Run α) (f : α → Run β) : Run β :=
  match m.result with
  | .ok a => ⟨m.calls ++ (f a).calls, (f a).result⟩
  | .threw e => ⟨m.calls, .threw e⟩

/-- One external call. -/
def call (c : Call) : Run Unit := ⟨[c], .ok ()⟩

/-- A computation that calls no service. -/
def lift {α : Type} (o : Outcome α) : Run α := ⟨[], o⟩

/-- The statement `try { m } catch { h }`. -/
def tryCatch {α : Type} (m : Run α) (h : JsError → Run α) : Run α :=
  match m.result with
  | .ok _ => m
  | .threw e => ⟨m.calls ++ (h e).calls, (h e).result⟩

end Run

instance : Monad Run where
  pure := Run.ret
  bind := Run.andThen

/-! ## `src/server.js` -/

/-- The function `saveMessage` (lines 28-35). -/
def saveMessage (chatId role : JSString) (text : Option JSString) : Run Unit :=
  match text with
  | some (c :: cs) => Run.call (.insert chatId role (c :: cs))
  | _ => pure ()

/-- The function `loadRecentMessages` (lines 37-51). -/
def loadRecentMessages (w : World) (chatId : JSString) (limit : Nat) :
    Run (List HistoryMsg) := do
  Run.call (.select chatId limit)
  match w.select chatId limit with
  | none => pure []
  | some data =>
    pure (data.reverse.map fun m =>
      { role := if m.role = js "student" then js "user" else js "assistant",
        content := m.text })

/-- The function `generateSpeech` (lines 64-73). -/
def generateSpeech (w : World) (text : Option JSString) : Run JSString := do
  Run.call (.speech text)
  match w.speechRejects text with
  | true => Run.lift (.threw .rejected)
  | false => pure (js "data:audio/mp3;base64," ++ w.speech text)

/-- The alternatives of the fast-path regular expression (line 81). -/
def triggerPhrases : List JSString :=
  [js "ok", js "okay", js "haan", js "haanji", js "ready", js "next", js "continue",
   js "tell me more", js "in detail", js "detail", js "explain more", js "more about",
   js "deep", js "expand", js "example", js "sample", js "show example",
   js "give example", js "code example", js "syntax"]

/-- The chain `d.choices?.[0]?.message?.content`. -/
def answerOf (d : ReplyBody) : Content :=
  match d.choices with
  | some (c :: _) =>
    match c.message with
    | some m => m.content
    | none => .absent
  | _ => .absent

/-- The function `detectIntent` (lines 77-110). -/
def detectIntent (rt : Runtime) (w : World) (text : Option JSString) : Run JSString :=
  let t := rt.toLowerCase (if truthy text then text.getD [] else [])
  if regexTest triggerPhrases t then
    pure (js "teach")
  else do
    Run.call (.classify text)
    let d := w.classify text
    match answerOf d with
    | .text s =>
      let a := rt.toLowerCase (trim s)
      if truthy (some a) then pure a else pure (js "teach")
    | _ => pure (js "teach")

/-- The path `d.choices[0].message.content`, which raises a `TypeError` once a
link is missing. -/
def contentOf (d : ReplyBody) : Outcome Content :=
  match d.choices with
  | some (c :: _) =>
    match c.message with
    | some m => .ok m.content
    | none => .threw .typeError
  | _ => .threw .typeError

/-- The call `JSON.parse(content)`: the argument is first converted to a
string, so `undefined` is a syntax error and `null` parses to `null`. -/
def jsonParse (rt : Runtime) : Content → Outcome Parsed
  | .absent => .threw .syntaxError
  | .null => .ok .null
  | .text s =>
    match rt.jsonParse s with
    | some v => .ok v
    | none => .threw .syntaxError

/-- The expression `Array.isArray(parsed.lines) ? parsed.lines : []`. -/
def linesOf : Parsed → Outcome (List JSString)
  | .null => .threw .typeError
  | .other => .ok []
  | .object _ lines _ => .ok (lines.getD [])

/-- The function `generateBoardFromSpoken` (lines 114-156). -/
def generateBoardFromSpoken (rt : Runtime) (w : World) (spokenText : JSString) :
    Run (List JSString) := do
  Run.call (.board spokenText)
  match w.boardRejects spokenText with
  | true => Run.lift (.threw .rejected)
  | false =>
    let d := w.board spokenText
    pure (Outcome.tryCatch
      (do
        let content ← contentOf d
        let parsed ← jsonParse rt content
        linesOf parsed)
      (fun _ => []))

/-- The function `chatReply` (lines 160-185). -/
def chatReply (w : World) (topic profile : Option JSString) (chatId : JSString) :
    Run Content := do
  let history ← loadRecentMessages w chatId 12
  Run.call (.chat profile history topic)
  let d := w.chat profile history topic
  Run.lift (contentOf d)

/-- The expression `Array.isArray(parsed.steps) ? parsed.steps : []`. -/
def stepsOf : Parsed → Outcome (List Step)
  | .null => .threw .typeError
  | .other => .ok []
  | .object steps _ _ => .ok (steps.getD [])

/-- The object `{ steps: [] }` of the `catch` branches. -/
def emptySteps : Parsed := .object (some []) none ⟨none, none, none⟩

/-- A string-valued content as a property value: `undefined` and `null` are missing. -/
def Content.toOption : Content → Option JSString
  | .text s => some s
  | _ => none

/-- The body of the per-step loop (lines 263-270 and 367-378). -/
def processStep (rt : Runtime) (w : World) (finalChatId : JSString) (s : Step) :
    Run Step := do
  let spoken : JSString := if truthy s.spokenText then s.spokenText.getD [] else []
  let boardLines ←
    if (match s.boardLines with
        | none => true
        | some ls => ls.length == 0) && decide (spoken.length > 40) then do
      let lines ← generateBoardFromSpoken rt w spoken
      pure (some lines)
    else pure s.boardLines
  let audio ←
    if truthy (some spoken) then do
      let a ← generateSpeech w (some spoken)
      pure (some a)
    else pure none
  saveMessage finalChatId (js "teacher") (some spoken)
  pure { spokenText := s.spokenText, boardLines := boardLines, audio := audio }

/-- The loop `for (const s of steps)` (lines 262-271 and 366-379); the
result is the list of steps as the loop leaves them. -/
def stepLoop (rt : Runtime) (w : World) (finalChatId : JSString) :
    List Step → Run (List Step)
  | [] => pure []
  | s :: rest => do
    let s1 ← processStep rt w finalChatId s
    let rest1 ← stepLoop rt w finalChatId rest
    pure (s1 :: rest1)

/-- The body of a `/teach` request. -/
structure TeachRequest where
  topic : Option JSString
  voiceProfile : Option JSString
  chatId : Option JSString

/-- What a handler sends back. -/
inductive Response where
  | steps (status : Nat) (steps : List Step)
  | error (status : Nat) (message : JSString)
deriving DecidableEq, Repr

/-- The expression `chatId || "default"`. -/
def finalChatIdOf (chatId : Option JSString) : JSString :=
  if truthy chatId then chatId.getD [] else js "default"

/-- The chat branch of `/teach` (lines 198-203). -/
def chatBranch (w : World) (req : TeachRequest) (finalChatId : JSString) :
    Run Response := do
  let text ← chatReply w req.topic req.voiceProfile finalChatId
  let audio ← generateSpeech w text.toOption
  saveMessage finalChatId (js "teacher") text.toOption
  pure (.steps 200
    [{ spokenText := text.toOption, boardLines := some [], audio := some audio }])

/-- The teach branch of `/teach` (lines 206-273). -/
def teachBranch (rt : Runtime) (w : World) (req : TeachRequest) (finalChatId : JSString) :
    Run Response := do
  let history ← loadRecentMessages w finalChatId 12
  Run.call (.structured req.voiceProfile history req.topic)
  let d := w.structured req.voiceProfile history req.topic
  let parsed :=
    Outcome.tryCatch
      (do
        let content ← contentOf d
        jsonParse rt content)
      (fun _ => emptySteps)
  let steps ← Run.lift (stepsOf parsed)
  let steps ← stepLoop rt w finalChatId steps
  pure (.steps 200 steps)

/-- The handler `app.post("/teach")` (lines 189-274). -/
def teach (rt : Runtime) (w : World) (req : TeachRequest) : Run Response := do
  let finalChatId := finalChatIdOf req.chatId
  saveMessage finalChatId (js "student") req.topic
  let intent ← detectIntent rt w req.topic
  if intent = js "chat" then
    chatBranch w req finalChatId
  else
    teachBranch rt w req finalChatId

/-- The fields of the body of a `/teach-image` request. -/
structure ImageFields where
  question : Option JSString
  voiceProfile : Option JSString
  chatId : Option JSString

/-- A `/teach-image` request: `body` is `req.body`, missing when no parser
has set it, and `file` is the uploaded image, base64-encoded, when there is
one. -/
structure ImageRequest where
  body : Option ImageFields
  file : Option JSString

/-- The `try` block of the handler of `/teach-image` (lines 280-381); the
destructuring of line 280 raises a `TypeError` on a missing body. -/
def teachImageBody (rt : Runtime) (w : World) (req : ImageRequest) : Run Response := do
  let body ←
    match req.body with
    | some body => pure body
    | none => Run.lift (.threw .typeError)
  let finalChatId := finalChatIdOf body.chatId
  match req.file with
  | none => pure (.error 400 (js "No image file uploaded."))
  | some base64 =>
    saveMessage finalChatId (js "student")
      (if truthy body.question then body.question else some (js "[Uploaded Image]"))
    let history ← loadRecentMessages w finalChatId 12
    let question :=
      if truthy body.question then body.question.getD []
      else js "Please explain what is in this image."
    Run.call (.vision body.voiceProfile history question base64)
    let d := w.vision body.voiceProfile history question base64
    if d.error then
      pure (.error 500 (js "AI failed to process image."))
    else do
      let parsed :=
        Outcome.tryCatch
          (do
            let content ← contentOf d
            jsonParse rt content)
          (fun _ => emptySteps)
      let steps ← Run.lift (stepsOf parsed)
      let steps :=
        match parsed with
        | .object _ _ self =>
          if steps.length == 0 && truthy self.spokenText then [self] else steps
        | _ => steps
      let steps ← stepLoop rt w finalChatId steps
      pure (.steps 200 steps)

/-- The handler `app.post("/teach-image")` (lines 278-387). -/
def teachImage (rt : Runtime) (w : World) (req : ImageRequest) : Run Response :=
  Run.tryCatch (teachImageBody rt w req)
    (fun _ => pure (.error 500 (js "Internal server error during image analysis.")))

/-! ## `src/script.js` -/

/-- An entry of a chat's message log. -/
structure ChatMessage where
  role : JSString
  text : JSString
deriving DecidableEq, Repr

/-- A chat session (line 8). -/
structure Chat where
  id : JSString
  title : JSString
  messages : List ChatMessage
  board : List JSString
deriving DecidableEq, Repr

/-- A `div` of the board: its class and its text. -/
structure BoardDiv where
  className : JSString
  text : JSString
deriving DecidableEq, Repr

/-- The body of the `forEach` of `renderBoard` (lines 22-33). -/
def renderLine (line : JSString) : BoardDiv :=
  if (js "# ").isPrefixOf line then
    { className := js "board-heading", text := line.drop 2 }
  else if (js "> ").isPrefixOf line then
    { className := js "board-code", text := line.drop 2 }
  else
    { className := js "board-text", text := line }

/-- The function `renderBoard` (lines 16-35): the children of the board
element after the call, for the active chat `c` (if any). -/
def renderBoard (c : Option Chat) : List BoardDiv :=
  match c with
  | none => []
  | some c => c.board.map renderLine

/-- What the type detection of `writeLines` fixes for a line. -/
structure Typing where
  className : JSString
  content : JSString
  speed : Nat
deriving DecidableEq, Repr

/-- The type detection of `writeLines` (lines 45-65). -/
def detectType (rawLine : JSString) : Typing :=
  if (js "# ").isPrefixOf rawLine then
    { className := js "board-heading", content := rawLine.drop 2, speed := 20 }
  else if (js "> ").isPrefixOf rawLine then
    { className := js "board-code", content := rawLine.drop 2, speed := 5 }
  else if (js "$ ").isPrefixOf rawLine then
    { className := js "board-math", content := rawLine.drop 2, speed := 20 }
  else if (js "- ").isPrefixOf rawLine then
    { className := js "board-list", content := js "• " ++ rawLine.drop 2, speed := 20 }
  else
    { className := js "board-text", content := rawLine, speed := 20 }

/-- What the player does that can be observed, in order. -/
inductive Event where
  | message (m : ChatMessage)
  | board (line : JSString)
  | div (className : JSString)
  | text (shown : JSString)
  | play (src : JSString)
deriving DecidableEq, Repr

/-- The state the player runs on: the active chat, the clock (in
milliseconds) and the events so far. -/
structure Session where
  chat : Chat
  now : Nat
  trace : List Event
deriving DecidableEq, Repr

/-- The interval callback of the typing animation (lines 72-80), fired up
to `fuel` more times starting from counter `i`: each firing comes `speed`
after the previous one, shows `content.slice(0, i)` and stops the interval
once the incremented counter exceeds `content.length`. -/
def typing (content : JSString) (speed : Nat) : Nat → Nat → Session → Session
  | 0, _, s => s
  | fuel + 1, i, s =>
    let s1 : Session :=
      { s with now := s.now + speed, trace := s.trace ++ [.text (content.take i)] }
    if i + 1 > content.length then s1 else typing content speed fuel (i + 1) s1

/-- One iteration of the loop of `writeLines` (lines 42-81). -/
def writeLine (rawLine : JSString) (s : Session) : Session :=
  let t := detectType rawLine
  let s1 : Session :=
    { s with
      chat := { s.chat with board := s.chat.board ++ [rawLine] },
      trace := s.trace ++ [.board rawLine, .div t.className] }
  typing t.content t.speed (t.content.length + 1) 0 s1

/-- The function `writeLines` (lines 37-83); the clock of the result is the
time at which the returned promise resolves. -/
def writeLines : List JSString → Session → Session
  | [], s => s
  | rawLine :: rest, s => writeLines rest (writeLine rawLine s)

/-- The function `add` (lines 135-140). -/
def add (role text : JSString) (s : Session) : Session :=
  { s with
    chat :=
      { s.chat with
        messages := s.chat.messages ++ [{ role := role, text := text }],
        title :=
          if s.chat.title = js "New chat" ∧ role = js "student" then text.take 28
          else s.chat.title },
    trace := s.trace ++ [.message { role := role, text := text }] }

/-- How the audio element answers `play()` for a source: after `latency`
the returned promise settles; it is rejected when `duration` is `none`,
otherwise playback has begun and `ended` fires `duration` later. -/
structure Playback where
  latency : Nat
  duration : Option Nat
deriving DecidableEq, Repr

/-- A promise, by the time at which it resolves. -/
abbrev Promise := Nat

/-- The promise `Promise.all(ps)`: resolved once every member is. -/
def promiseAll (ps : List Promise) : Promise := ps.foldl max 0

/-- The statement `await p` at time `now`: control resumes once `p` has resolved. -/
def await (now : Nat) (p : Promise) : Nat := max now p

/-- The times of one iteration of `playSteps`. -/
structure Schedule where
  begin : Nat
  channels : Nat
  audioDone : Promise
  boardDone : Promise
  finish : Nat
deriving DecidableEq, Repr

/-- The body of the loop of `playSteps` (lines 294-315). -/
def playStep (audio : JSString → Playback) (step : Step) (s : Session) :
    Session × Schedule :=
  let begin := s.now
  let s1 := if truthy step.spokenText then add (js "teacher") (step.spokenText.getD []) s else s
  let audioPromise : Promise := s1.now
  let (s2, audioPromise) :=
    if truthy step.audio then
      let src := step.audio.getD []
      let p := audio src
      let s2 : Session := { s1 with now := s1.now + p.latency, trace := s1.trace ++ [.play src] }
      match p.duration with
      | some d => (s2, s2.now + d)
      | none => (s2, audioPromise)
    else (s1, audioPromise)
  let channels := s2.now
  let boardPromise : Promise := s2.now
  let (s3, boardPromise) :=
    match step.boardLines with
    | some (l :: ls) =>
      let s3 := writeLines (l :: ls) s2
      (s3, s3.now)
    | _ => (s2, boardPromise)
  let finish := await channels (promiseAll [audioPromise, boardPromise])
  ({ s3 with now := finish },
   { begin := begin, channels := channels, audioDone := audioPromise,
     boardDone := boardPromise, finish := finish })

/-- The function `playSteps` (lines 288-317), with the schedule of every iteration. -/
def playSteps (audio : JSString → Playback) : List Step → Session → Session × List Schedule
  | [], s => (s, [])
  | step :: rest, s =>
    let r := playStep audio step s
    let q := playSteps audio rest r.1
    (q.1, r.2 :: q.2)

/-! ## Auxiliary definitions of the statements -/

/-- The narration of a step: the value of `s.spokenText || ""`. -/
def Step.spoken (s : Step) : JSString := if truthy s.spokenText then s.spokenText.getD [] else []

/-- The condition under which the per-step loop asks for board synthesis. -/
def Step.needsBoard (s : Step) : Bool :=
  (match s.boardLines with
    | none => true
    | some ls => ls.length == 0) && decide (s.spoken.length > 40)

/-- The lines `generateBoardFromSpoken` returns for a narration. -/
def synthesized (rt : Runtime) (w : World) (spoken : JSString) : List JSString :=
  Outcome.tryCatch
    (do
      let content ← contentOf (w.board spoken)
      let parsed ← jsonParse rt content
      linesOf parsed)
    (fun _ => [])

/-- The arguments of the board-synthesis calls of a log, in order. -/
def boardCalls : List Call → List JSString
  | [] => []
  | .board t :: cs => t :: boardCalls cs
  | _ :: cs => boardCalls cs

/-- The list `loadRecentMessages` builds from the data of the store. -/
def historyOf (data : Option (List Row)) : List HistoryMsg :=
  match data with
  | none => []
  | some data =>
    data.reverse.map fun m =>
      { role := if m.role = js "student" then js "user" else js "assistant",
        content := m.text }

/-- The intent `detectIntent` derives from the body of the classification reply. -/
def classified (rt : Runtime) (d : ReplyBody) : JSString :=
  match answerOf d with
  | .text s =>
    let a := rt.toLowerCase (trim s)
    if truthy (some a) then a else js "teach"
  | _ => js "teach"

/-- The intent `detectIntent` returns. -/
def intentOf (rt : Runtime) (w : World) (text : Option JSString) : JSString :=
  if regexTest triggerPhrases (rt.toLowerCase (if truthy text then text.getD [] else []))
  then js "teach" else classified rt (w.classify text)

/-- The value of `parsed` after the `try` statement of the handlers. -/
def parsedOf (rt : Runtime) (d : ReplyBody) : Parsed :=
  Outcome.tryCatch
    (do
      let content ← contentOf d
      jsonParse rt content)
    (fun _ => emptySteps)

/-- The step the per-step loop leaves for a step. -/
def Step.processed (rt : Runtime) (w : World) (s : Step) : Step :=
  { spokenText := s.spokenText,
    boardLines := if s.needsBoard then some (synthesized rt w s.spoken) else s.boardLines,
    audio := if s.spoken = [] then none
             else some (js "data:audio/mp3;base64," ++ w.speech (some s.spoken)) }

/-- The same services, with no board-synthesis or speech request rejected. -/
def World.reliable (w : World) : World :=
  { w with boardRejects := fun _ => false, speechRejects := fun _ => false }

/-- A request of the iteration of a step is rejected: the board-synthesis
request, when the step needs one, or else the speech request for its
narration, when it has one. -/
def Step.rejected (w : World) (s : Step) : Bool :=
  (s.needsBoard && w.boardRejects s.spoken) ||
    (decide (s.spoken ≠ []) && w.speechRejects (some s.spoken))

/-- What the generator guarantees about the board of a step it returns: when
the narration is longer than 40, the board lines are non-empty, or they are
the empty list board synthesis returned for that narration. -/
def Step.boardSettled (rt : Runtime) (w : World) (s : Step) : Prop :=
  40 < (s.spokenText.getD []).length →
    (∃ l ls, s.boardLines = some (l :: ls)) ∨
      (s.boardLines = some [] ∧ synthesized rt w (s.spokenText.getD []) = [])

/-! ### Concrete inputs -/

/-- Lower-casing of the ASCII letters: `toLowerCase` on ASCII strings. -/
def asciiLower (s : JSString) : JSString :=
  s.map fun c => if 65 ≤ c ∧ c ≤ 90 then c + 32 else c

/-- A reply body carrying `text` as the content of its first choice. -/
def replyWith (text : JSString) : ReplyBody :=
  { choices := some [{ message := some { content := .text text } }], error := false }

/-- A narration of 45 characters. -/
def sampleNarration : JSString := js "Photosynthesis is how plants make their food."

/-- A structured reply: one step with that narration and no board lines. -/
def sampleStepsText : JSString :=
  js ("\x7b\"steps\":[\x7b\"spokenText\":\"Photosynthesis is how plants make their food.\"," ++
    "\"boardLines\":[]\x7d]\x7d")

/-- A board-synthesis reply of two lines. -/
def sampleLinesText : JSString :=
  js "\x7b\"lines\":[\"# Photosynthesis\",\"- Plants make food from light\"]\x7d"

/-- A conversational reply of 50 characters. -/
def sampleChatReply : JSString := js "Sure, happy to chat! How is your day going so far?"

/-- A runtime for concrete runs: ASCII lower-casing, and `JSON.parse` on the
three JSON texts the runs below parse; any other text is taken as malformed. -/
def sampleRuntime : Runtime :=
  { toLowerCase := asciiLower
    toLowerCase_nil := rfl
    jsonParse := fun s =>
      if s = js "null" then some .null
      else if s = sampleStepsText then
        some (.object
          (some [{ spokenText := some sampleNarration, boardLines := some [], audio := none }])
          none ⟨none, none, none⟩)
      else if s = sampleLinesText then
        some (.object none
          (some [js "# Photosynthesis", js "- Plants make food from light"])
          ⟨none, none, none⟩)
      else none }

/-- Services for concrete runs: the classifier answers `chat` to the small
talk below and `teach` otherwise. -/
def sampleWorld : World :=
  { select := fun _ _ => some []
    classify := fun text =>
      if text = some (js "how are you?") then replyWith (js "chat") else replyWith (js "teach")
    chat := fun _ _ _ => replyWith sampleChatReply
    structured := fun _ _ _ => replyWith sampleStepsText
    vision := fun _ _ _ _ => replyWith sampleStepsText
    board := fun _ => replyWith sampleLinesText
    boardRejects := fun _ => false
    speech := fun _ => js "UklGRg=="
    speechRejects := fun _ => false }

/-- A request of small talk. -/
def smallTalk : TeachRequest :=
  { topic := some (js "how are you?"), voiceProfile := some (js "english"), chatId := none }

/-- A request for a lesson. -/
def lesson : TeachRequest :=
  { topic := some (js "photosynthesis"), voiceProfile := some (js "english"), chatId := none }

/-- The teacher-role inserts of a log, in order: chat id and text. -/
def teacherInserts : List Call → List (JSString × JSString)
  | [] => []
  | .insert chatId role text :: cs =>
    if role = js "teacher" then (chatId, text) :: teacherInserts cs else teacherInserts cs
  | _ :: cs => teacherInserts cs

/-- A step that writes on the board and says nothing. -/
def silentStep : Step :=
  { spokenText := some [], boardLines := some [js "# Photosynthesis"], audio := none }

/-- A reply body whose message has `content: null`. -/
def replyNull : ReplyBody :=
  { choices := some [{ message := some { content := .null } }], error := false }

/-- The string `t` contains the phrase `p`, letter case ignored. -/
def ContainsIgnoringCase (p t : JSString) : Prop :=
  ∃ pre u post, t = pre ++ u ++ post ∧ u.map canonicalize = p.map canonicalize

/-- Services whose classifier answers `Banana`. -/
def bananaWorld : World := { sampleWorld with classify := fun _ => replyWith (js "Banana") }

/-- The time the typing animation of a line takes. -/
def lineDuration (rawLine : JSString) : Nat :=
  ((detectType rawLine).content.length + 1) * (detectType rawLine).speed

/-- The texts a log shows, in order. -/
def shownTexts : List Event → List JSString
  | [] => []
  | .text t :: es => t :: shownTexts es
  | _ :: es => shownTexts es

/-- The mutations of the chat in a log, in order: pushes to the message log
and to the board. -/
def mutations : List Event → List Event
  | [] => []
  | .message m :: es => .message m :: mutations es
  | .board l :: es => .board l :: mutations es
  | _ :: es => mutations es

/-- The time the board channel of a step takes: `0` without board lines. -/
def boardDuration (step : Step) : Nat :=
  ((step.boardLines.getD []).map lineDuration).sum

/-- The time the audio channel of a step takes once `play()` has settled:
`0` without an audio handle or when playback fails to start. -/
def audioDuration (audio : JSString → Playback) (step : Step) : Nat :=
  if truthy step.audio then (audio (step.audio.getD [])).duration.getD 0 else 0

/-- The mutations of the chat one step makes: its log entry, then its board lines. -/
def Step.writes (step : Step) : List Event :=
  (if truthy step.spokenText
    then [Event.message { role := js "teacher", text := step.spokenText.getD [] }] else [])
  ++ (step.boardLines.getD []).map Event.board

/-- The log entry of a step, if it has a narration. -/
def Step.logEntry (step : Step) : List ChatMessage :=
  if truthy step.spokenText
  then [{ role := js "teacher", text := step.spokenText.getD [] }] else []

/-- A new chat, at time `0`. -/
def newSession : Session :=
  { chat := { id := js "1700000000000", title := js "New chat", messages := [], board := [] },
    now := 0, trace := [] }

/-- An audio element on which every source starts after 30 ms and plays for 100 ms. -/
def sampleAudio : JSString → Playback := fun _ => { latency := 30, duration := some 100 }

/-- Two steps: a narrated heading, then a farewell without board or audio. -/
def sampleSteps : List Step :=
  [{ spokenText := some (js "Hi"), boardLines := some [js "# A"],
     audio := some (js "data:audio/mp3;base64,UklGRg==") },
   { spokenText := some (js "Bye"), boardLines := none, audio := none }]

/-- Services whose speech synthesizer fails on the narration `Second part.`. -/
def muteWorld : World :=
  { sampleWorld with speechRejects := fun text => decide (text = some (js "Second part.")) }

/-- Three narrated steps, each with a heading. -/
def narratedSteps : List Step :=
  [{ spokenText := some (js "First part."), boardLines := some [js "# One"], audio := none },
   { spokenText := some (js "Second part."), boardLines := some [js "# Two"], audio := none },
   { spokenText := some (js "Third part."), boardLines := some [js "# Three"], audio := none }]

/-- Two messages of a chat, newest first: the teacher's answer, then the
student's question. -/
def storedRows : List Row :=
  [{ role := js "teacher", text := js "Plants make food from light." },
   { role := js "student", text := js "photosynthesis" }]

/-- Services whose store holds those two messages. -/
def historyWorld : World := { sampleWorld with select := fun _ _ => some storedRows }

/-! ## Properties -/

/-! ### Runs -/

theorem Run.bind_ok {α β : Type} (cs : List Call) (a : α) (f : α → Run β) :
    (Bind.bind (⟨cs, .ok a⟩ : Run α) f) = ⟨cs ++ (f a).calls, (f a).result⟩ := rfl

theorem Run.bind_threw {α β : Type} (cs : List Call) (e : JsError) (f : α → Run β) :
    (Bind.bind (⟨cs, .threw e⟩ : Run α) f) = ⟨cs, .threw e⟩ := rfl

theorem Run.pure_eq {α : Type} (a : α) : (Pure.pure a : Run α) = ⟨[], .ok a⟩ := rfl

theorem Run.result_bind {α β : Type} (m : Run α) (f : α → Run β) :
    (m >>= f).result = match m.result with
      | .ok a => (f a).result
      | .threw e => .threw e := by
  rcases m with ⟨cs, _ | _⟩ <;> rfl

theorem Run.calls_bind {α β : Type} (m : Run α) (f : α → Run β) :
    (m >>= f).calls = m.calls ++ match m.result with
      | .ok a => (f a).calls
      | .threw _ => [] := by
  rcases m with ⟨cs, _ | _⟩ <;> simp [Bind.bind, Run.andThen]

theorem Run.bind_of_ok {α β : Type} (m : Run α) (a : α) (h : m.result = .ok a)
    (f : α → Run β) : (m >>= f) = ⟨m.calls ++ (f a).calls, (f a).result⟩ := by
  rcases m with ⟨cs, r⟩
  simp only at h
  subst h
  rfl

theorem generateBoardFromSpoken_eq (rt : Runtime) (w : World) (t : JSString) :
    generateBoardFromSpoken rt w t =
      if w.boardRejects t = true then ⟨[.board t], .threw .rejected⟩
      else ⟨[.board t], .ok (synthesized rt w t)⟩ := by
  unfold generateBoardFromSpoken
  cases h : w.boardRejects t <;> rfl

theorem generateSpeech_eq (w : World) (t : Option JSString) :
    generateSpeech w t =
      if w.speechRejects t = true then ⟨[.speech t], .threw .rejected⟩
      else ⟨[.speech t], .ok (js "data:audio/mp3;base64," ++ w.speech t)⟩ := by
  unfold generateSpeech
  cases h : w.speechRejects t <;> rfl

theorem saveMessage_nil (c r : JSString) : saveMessage c r (some []) = ⟨[], .ok ()⟩ := rfl

theorem saveMessage_none (c r : JSString) : saveMessage c r none = ⟨[], .ok ()⟩ := rfl

theorem saveMessage_cons (c r : JSString) (x : Nat) (xs : JSString) :
    saveMessage c r (some (x :: xs)) = ⟨[.insert c r (x :: xs)], .ok ()⟩ := rfl

theorem boardCalls_append (a b : List Call) :
    boardCalls (a ++ b) = boardCalls a ++ boardCalls b := by
  induction a with
  | nil => rfl
  | cons c cs ih => cases c <;> simp [boardCalls, ih]

/-! ### The per-step loop of the generator -/

theorem Step.spoken_eq (s : Step) : s.spoken = s.spokenText.getD [] := by
  rcases s with ⟨_ | _ | ⟨x, xs⟩, b, a⟩ <;> rfl

theorem Step.needsBoard_iff (s : Step) :
    s.needsBoard = true ↔
      (s.boardLines = none ∨ s.boardLines = some []) ∧ 40 < (s.spokenText.getD []).length := by
  rw [← Step.spoken_eq]
  unfold Step.needsBoard
  rcases s.boardLines with _ | _ | ⟨l, ls⟩ <;> simp

/-- One iteration of the loop, in closed form: a rejected board-synthesis
request ends it after that call, a rejected speech request after that call,
and otherwise it makes its calls and leaves the processed step. -/
theorem processStep_eq (rt : Runtime) (w : World) (cid : JSString) (s : Step) :
    processStep rt w cid s =
      if s.needsBoard = true ∧ w.boardRejects s.spoken = true then
        ⟨[Call.board s.spoken], .threw .rejected⟩
      else if s.spoken ≠ [] ∧ w.speechRejects (some s.spoken) = true then
        ⟨(if s.needsBoard then [Call.board s.spoken] else []) ++ [Call.speech (some s.spoken)],
          .threw .rejected⟩
      else
        ⟨(if s.needsBoard then [Call.board s.spoken] else []) ++
          (if s.spoken = [] then [] else
            [Call.speech (some s.spoken), Call.insert cid (js "teacher") s.spoken]),
         .ok (s.processed rt w)⟩ := by
  unfold processStep Step.processed
  simp only [generateBoardFromSpoken_eq, generateSpeech_eq]
  have hs : (if truthy s.spokenText then s.spokenText.getD [] else []) = s.spoken := rfl
  rw [hs]
  unfold Step.needsBoard
  clear hs
  generalize s.spoken = sp
  rcases hbl : s.boardLines with _ | _ | ⟨l, ls⟩ <;> rcases sp with _ | ⟨x, xs⟩ <;>
    simp only [truthy, saveMessage_nil, saveMessage_cons, Run.pure_eq] <;>
    split_ifs <;>
    simp_all [Run.bind_ok, Run.bind_threw, Run.pure_eq, saveMessage_cons, saveMessage_nil] <;>
    omega

theorem Step.rejected_iff (w : World) (s : Step) :
    s.rejected w = true ↔
      (s.needsBoard = true ∧ w.boardRejects s.spoken = true) ∨
        (s.spoken ≠ [] ∧ w.speechRejects (some s.spoken) = true) := by
  simp [Step.rejected]

/-- An iteration none of whose requests is rejected. -/
theorem processStep_of_answered (rt : Runtime) (w : World) (cid : JSString) (s : Step)
    (h : s.rejected w = false) :
    processStep rt w cid s =
      ⟨(if s.needsBoard then [Call.board s.spoken] else []) ++
        (if s.spoken = [] then [] else
          [Call.speech (some s.spoken), Call.insert cid (js "teacher") s.spoken]),
       .ok (s.processed rt w)⟩ := by
  have h1 : ¬ (s.rejected w = true) := by simp [h]
  rw [Step.rejected_iff, not_or] at h1
  rw [processStep_eq, if_neg h1.1, if_neg h1.2]

/-- An iteration one of whose requests is rejected raises before its insert. -/
theorem processStep_of_rejected (rt : Runtime) (w : World) (cid : JSString) (s : Step)
    (h : s.rejected w = true) :
    (processStep rt w cid s).result = .threw .rejected
      ∧ ∀ c r t, Call.insert c r t ∉ (processStep rt w cid s).calls := by
  rw [Step.rejected_iff] at h
  rw [processStep_eq]
  by_cases h1 : s.needsBoard = true ∧ w.boardRejects s.spoken = true
  · rw [if_pos h1]; simp
  · rw [if_neg h1, if_pos (h.resolve_left h1)]
    refine ⟨rfl, ?_⟩
    intro c r t
    split_ifs <;> simp

theorem Step.rejected_reliable (w : World) (s : Step) : s.rejected w.reliable = false := by
  simp [Step.rejected, World.reliable]

theorem Step.processed_reliable (rt : Runtime) (w : World) (s : Step) :
    s.processed rt w.reliable = s.processed rt w := rfl

/-- When no request of the loop is rejected, the loop does not raise: its
calls are those of its iterations, in step order, and it leaves one step per
input step. -/
theorem stepLoop_eq (rt : Runtime) (w : World) (cid : JSString) (steps : List Step)
    (h : ∀ s ∈ steps, s.rejected w = false) :
    (stepLoop rt w cid steps).calls
        = (steps.map fun s => (processStep rt w cid s).calls).flatten
      ∧ (stepLoop rt w cid steps).result = .ok (steps.map (Step.processed rt w)) := by
  induction steps with
  | nil => exact ⟨rfl, rfl⟩
  | cons s rest ih =>
    obtain ⟨ih1, ih2⟩ := ih (fun x hx => h x (List.mem_cons_of_mem _ hx))
    have hl : stepLoop rt w cid rest
        = ⟨(stepLoop rt w cid rest).calls, (stepLoop rt w cid rest).result⟩ := rfl
    have hp := processStep_of_answered rt w cid s (h s (List.mem_cons_self _ _))
    unfold stepLoop
    rw [hl, ih2, hp]
    simp [Run.bind_ok, Run.pure_eq, ih1, hp]

/-- The steps the loop leaves, when it completes. -/
theorem stepLoop_result_ok (rt : Runtime) (w : World) (cid : JSString) (steps out : List Step)
    (h : (stepLoop rt w cid steps).result = .ok out) :
    out = steps.map (Step.processed rt w) := by
  induction steps generalizing out with
  | nil =>
    have : out = [] := by cases h; rfl
    rw [this]; rfl
  | cons s rest ih =>
    unfold stepLoop at h
    by_cases hr : s.rejected w = true
    · have hp := (processStep_of_rejected rt w cid s hr).1
      rw [Run.result_bind, hp] at h
      cases h
    · have hp := processStep_of_answered rt w cid s (by simpa using hr)
      rw [Run.result_bind, hp] at h
      simp only [Run.result_bind] at h
      cases hl : (stepLoop rt w cid rest).result with
      | threw e => rw [hl] at h; cases h
      | ok rest1 =>
        rw [hl] at h
        have h2 := ih rest1 hl
        simp only [Run.pure_eq, Outcome.ok.injEq] at h
        rw [← h, h2]
        rfl

/-- C1: the iteration of a step, in the per-step loop shared by `/teach` and
`/teach-image`, calls board synthesis exactly once, on the step's narration,
when the step's `boardLines` is absent or empty and its `spokenText` is
longer than 40, and not at all otherwise (so not at length 40, and not when
`boardLines` is non-empty), whatever the services do; and with board
synthesis and speech synthesis answering, the loop runs every iteration in
step order and completes. -/
theorem board_synthesis_once_per_step (rt : Runtime) (w : World) (finalChatId : JSString)
    (steps : List Step) :
    (stepLoop rt w.reliable finalChatId steps).calls
        = (steps.map fun s => (processStep rt w.reliable finalChatId s).calls).flatten
      ∧ (∃ out, (stepLoop rt w.reliable finalChatId steps).result = .ok out)
      ∧ ∀ s : Step,
          boardCalls (processStep rt w finalChatId s).calls
            = if (s.boardLines = none ∨ s.boardLines = some []) ∧
                  40 < (s.spokenText.getD []).length
              then [s.spokenText.getD []] else [] := by
  have hrel := stepLoop_eq rt w.reliable finalChatId steps
    (fun s _ => Step.rejected_reliable w s)
  refine ⟨hrel.1, ⟨_, hrel.2⟩, fun s => ?_⟩
  have hn := Step.needsBoard_iff s
  rw [← Step.spoken_eq] at hn ⊢
  rw [processStep_eq]
  by_cases hc : (s.boardLines = none ∨ s.boardLines = some []) ∧ 40 < s.spoken.length
  · have hb := hn.mpr hc
    rw [if_pos hc]
    split_ifs <;> simp_all [boardCalls, boardCalls_append]
  · have hb : ¬ s.needsBoard = true := fun h => hc (hn.mp h)
    rw [if_neg hc]
    split_ifs <;> simp_all [boardCalls, boardCalls_append]

/-! ### The handlers -/

theorem loadRecentMessages_eq (w : World) (c : JSString) (l : Nat) :
    loadRecentMessages w c l = ⟨[.select c l], .ok (historyOf (w.select c l))⟩ := by
  unfold loadRecentMessages historyOf
  cases w.select c l <;> rfl

theorem detectIntent_eq (rt : Runtime) (w : World) (text : Option JSString) :
    detectIntent rt w text =
      if regexTest triggerPhrases (rt.toLowerCase (if truthy text then text.getD [] else []))
      then ⟨[], .ok (js "teach")⟩
      else ⟨[.classify text], .ok (classified rt (w.classify text))⟩ := by
  unfold detectIntent classified
  simp only []
  by_cases h : regexTest triggerPhrases
      (rt.toLowerCase (if truthy text then text.getD [] else [])) = true
  · rw [if_pos h, if_pos h]; rfl
  · rw [if_neg h, if_neg h]
    cases answerOf (w.classify text) with
    | absent => rfl
    | null => rfl
    | text s =>
      simp only [Run.call, Run.bind_ok]
      split_ifs <;> rfl

theorem detectIntent_result (rt : Runtime) (w : World) (text : Option JSString) :
    (detectIntent rt w text).result = .ok (intentOf rt w text) := by
  rw [detectIntent_eq]; unfold intentOf; split_ifs <;> rfl

theorem saveMessage_result (c r : JSString) (t : Option JSString) :
    (saveMessage c r t).result = .ok () := by
  rcases t with _ | _ | ⟨x, xs⟩ <;> rfl

/-- The teach branch, in closed form. -/
theorem teachBranch_eq (rt : Runtime) (w : World) (req : TeachRequest) (cid : JSString) :
    teachBranch rt w req cid =
      match stepsOf (parsedOf rt
        (w.structured req.voiceProfile (historyOf (w.select cid 12)) req.topic)) with
      | .threw e =>
        ⟨[.select cid 12, .structured req.voiceProfile (historyOf (w.select cid 12)) req.topic],
          .threw e⟩
      | .ok steps =>
        ⟨[.select cid 12, .structured req.voiceProfile (historyOf (w.select cid 12)) req.topic]
            ++ (stepLoop rt w cid steps).calls,
          match (stepLoop rt w cid steps).result with
          | .ok out => .ok (.steps 200 out)
          | .threw e => .threw e⟩ := by
  unfold teachBranch parsedOf
  rw [loadRecentMessages_eq]
  simp only [Run.bind_ok, Run.call, Run.lift]
  generalize stepsOf _ = o
  cases o with
  | threw e => rfl
  | ok steps =>
    simp only [Run.bind_ok]
    rcases stepLoop rt w cid steps with ⟨cs, _ | _⟩ <;>
      simp [Run.bind_ok, Run.bind_threw, Run.pure_eq]

/-- The chat branch, in closed form. -/
theorem chatBranch_eq (w : World) (req : TeachRequest) (cid : JSString) :
    chatBranch w req cid =
      match contentOf (w.chat req.voiceProfile (historyOf (w.select cid 12)) req.topic) with
      | .threw e =>
        ⟨[.select cid 12, .chat req.voiceProfile (historyOf (w.select cid 12)) req.topic],
          .threw e⟩
      | .ok c =>
        if w.speechRejects c.toOption = true then
          ⟨[.select cid 12, .chat req.voiceProfile (historyOf (w.select cid 12)) req.topic,
              .speech c.toOption], .threw .rejected⟩
        else
          ⟨[.select cid 12, .chat req.voiceProfile (historyOf (w.select cid 12)) req.topic,
              .speech c.toOption] ++ (saveMessage cid (js "teacher") c.toOption).calls,
            .ok (.steps 200
              [{ spokenText := c.toOption, boardLines := some [],
                 audio := some (js "data:audio/mp3;base64," ++ w.speech c.toOption) }])⟩ := by
  unfold chatBranch chatReply
  rw [loadRecentMessages_eq]
  simp only [Run.bind_ok, Run.call, Run.lift, generateSpeech_eq]
  generalize contentOf _ = o
  cases o with
  | threw e => rfl
  | ok c =>
    simp only [Run.bind_ok]
    split_ifs
    · rfl
    · simp only [Run.bind_ok]
      simp only [Run.bind_of_ok _ _ (saveMessage_result cid (js "teacher") c.toOption)]
      simp [Run.pure_eq]

theorem teach_result (rt : Runtime) (w : World) (req : TeachRequest) :
    (teach rt w req).result =
      if intentOf rt w req.topic = js "chat"
      then (chatBranch w req (finalChatIdOf req.chatId)).result
      else (teachBranch rt w req (finalChatIdOf req.chatId)).result := by
  unfold teach
  simp only [Run.result_bind, saveMessage_result, detectIntent_result]
  split_ifs <;> rfl

theorem Step.processed_boardSettled (rt : Runtime) (w : World) (s : Step) :
    (s.processed rt w).boardSettled rt w := by
  intro hlen
  have hn := Step.needsBoard_iff s
  simp only [Step.processed] at hlen ⊢
  by_cases hb : s.needsBoard = true
  · rw [if_pos hb, ← Step.spoken_eq]
    cases hs : synthesized rt w s.spoken with
    | nil => right; exact ⟨rfl, rfl⟩
    | cons l ls => left; exact ⟨l, ls, rfl⟩
  · rw [if_neg hb]
    left
    rcases hbl : s.boardLines with _ | _ | ⟨l, ls⟩
    · exact absurd (hn.mpr ⟨Or.inl hbl, hlen⟩) hb
    · exact absurd (hn.mpr ⟨Or.inr hbl, hlen⟩) hb
    · exact ⟨l, ls, rfl⟩

theorem teachBranch_steps (rt : Runtime) (w : World) (req : TeachRequest) (cid : JSString)
    (status : Nat) (out : List Step)
    (h : (teachBranch rt w req cid).result = .ok (.steps status out)) :
    ∃ steps : List Step, out = steps.map (Step.processed rt w) := by
  rw [teachBranch_eq] at h
  split at h
  · cases h
  · next steps _ =>
    simp only at h
    cases hl : (stepLoop rt w cid steps).result with
    | threw e => rw [hl] at h; cases h
    | ok out1 =>
      rw [hl] at h
      simp only [Outcome.ok.injEq, Response.steps.injEq] at h
      exact ⟨steps, by rw [← h.2]; exact stepLoop_result_ok rt w cid steps out1 hl⟩

theorem teachImageBody_steps (rt : Runtime) (w : World) (req : ImageRequest)
    (status : Nat) (out : List Step)
    (h : (teachImageBody rt w req).result = .ok (.steps status out)) :
    ∃ steps : List Step, out = steps.map (Step.processed rt w) := by
  unfold teachImageBody at h
  cases hb : req.body with
  | none => simp [hb, Run.lift, Run.result_bind] at h
  | some body =>
    cases hf : req.file with
    | none => simp [hb, hf, Run.pure_eq, Run.result_bind] at h
    | some file =>
      simp only [hb, hf, Run.pure_eq, Run.result_bind, saveMessage_result,
        loadRecentMessages_eq, Run.call] at h
      split_ifs at h
      all_goals simp only [Run.result_bind, Run.lift, Run.pure_eq] at h
      all_goals first
        | cases h
        | (split at h
           · split at h
             · next steps _ out1 hl =>
               simp only [Outcome.ok.injEq, Response.steps.injEq] at h
               exact ⟨_, by rw [← h.2]; exact stepLoop_result_ok rt w _ _ out1 hl⟩
             · cases h
           · cases h)

theorem teachImage_steps (rt : Runtime) (w : World) (req : ImageRequest)
    (status : Nat) (out : List Step)
    (h : (teachImage rt w req).result = .ok (.steps status out)) :
    ∃ steps : List Step, out = steps.map (Step.processed rt w) := by
  unfold teachImage Run.tryCatch at h
  split at h
  · exact teachImageBody_steps rt w req status out h
  · simp [Run.pure_eq] at h

/-- C2, as stated, fails: on the chat branch `/teach` returns a step whose
narration has 50 characters and whose `boardLines` is empty. -/
theorem chat_step_has_empty_board :
    (teach sampleRuntime sampleWorld smallTalk).result
        = .ok (.steps 200
            [{ spokenText := some sampleChatReply, boardLines := some [],
               audio := some (js "data:audio/mp3;base64,UklGRg==") }])
      ∧ 40 < sampleChatReply.length := by
  decide

/-- C2, amended: every step `/teach` returns on the teach branch, and every
step `/teach-image` returns, whose narration is longer than 40 has non-empty
`boardLines` or carries the empty list that board synthesis returned for
its narration; the chat branch of `/teach` returns a single step whose
`boardLines` is empty, whatever its narration. -/
theorem returned_steps_board (rt : Runtime) (w : World) :
    (∀ (req : TeachRequest) (status : Nat) (out : List Step),
        (teach rt w req).result = .ok (.steps status out) →
          ((detectIntent rt w req.topic).result ≠ .ok (js "chat") →
              ∀ s ∈ out, s.boardSettled rt w)
          ∧ ((detectIntent rt w req.topic).result = .ok (js "chat") →
              ∃ text audio, out = [{ spokenText := text, boardLines := some [], audio := audio }]))
      ∧ ∀ (req : ImageRequest) (status : Nat) (out : List Step),
          (teachImage rt w req).result = .ok (.steps status out) →
            ∀ s ∈ out, s.boardSettled rt w := by
  constructor
  · intro req status out h
    rw [teach_result] at h
    rw [detectIntent_result]
    constructor
    · intro hne s hs
      have hne2 : ¬ intentOf rt w req.topic = js "chat" := fun e => hne (by rw [e])
      rw [if_neg hne2] at h
      obtain ⟨steps, rfl⟩ := teachBranch_steps rt w req _ status out h
      obtain ⟨s0, _, rfl⟩ := List.mem_map.mp hs
      exact Step.processed_boardSettled rt w s0
    · intro he
      have he2 : intentOf rt w req.topic = js "chat" := by
        simpa only [Outcome.ok.injEq] using he
      rw [if_pos he2, chatBranch_eq] at h
      split at h
      · cases h
      · split_ifs at h
        simp only [Outcome.ok.injEq, Response.steps.injEq] at h
        exact ⟨_, _, h.2.symm⟩
  · intro req status out h s hs
    obtain ⟨steps, rfl⟩ := teachImage_steps rt w req status out h
    obtain ⟨s0, _, rfl⟩ := List.mem_map.mp hs
    exact Step.processed_boardSettled rt w s0

/-- A lesson run: the model's step has a 45-character narration and no board
lines, board synthesis returns two lines, and the returned step carries them. -/
theorem returned_steps_board_witness :
    (teach sampleRuntime sampleWorld lesson).result
        = .ok (.steps 200
            [{ spokenText := some sampleNarration,
               boardLines := some [js "# Photosynthesis", js "- Plants make food from light"],
               audio := some (js "data:audio/mp3;base64,UklGRg==") }])
      ∧ (detectIntent sampleRuntime sampleWorld lesson.topic).result ≠ .ok (js "chat")
      ∧ Step.boardSettled sampleRuntime sampleWorld
          { spokenText := some sampleNarration,
            boardLines := some [js "# Photosynthesis", js "- Plants make food from light"],
            audio := some (js "data:audio/mp3;base64,UklGRg==") } :=
  ⟨by decide, by decide,
    ((returned_steps_board sampleRuntime sampleWorld).1 lesson 200 _ (by decide)).1
      (by decide) _ (List.mem_singleton.mpr rfl)⟩

/-! ### Persistence of the narration -/

theorem teacherInserts_append (a b : List Call) :
    teacherInserts (a ++ b) = teacherInserts a ++ teacherInserts b := by
  induction a with
  | nil => rfl
  | cons c cs ih =>
    cases c <;> simp only [List.cons_append, teacherInserts] <;>
      first
        | exact ih
        | (split_ifs <;> simp [ih])

theorem teacherInserts_of_no_insert (cs : List Call)
    (h : ∀ c r t, Call.insert c r t ∉ cs) : teacherInserts cs = [] := by
  induction cs with
  | nil => rfl
  | cons c cs ih =>
    have ih2 := ih (fun a r t hm => h a r t (List.mem_cons_of_mem _ hm))
    cases c with
    | insert a r t => exact absurd (List.mem_cons_self _ _) (h a r t)
    | _ => simpa only [teacherInserts] using ih2

theorem teacherInserts_processStep (rt : Runtime) (w : World) (cid : JSString) (s : Step)
    (h : s.rejected w = false) :
    teacherInserts (processStep rt w cid s).calls
      = if s.spokenText.getD [] = [] then [] else [(cid, s.spokenText.getD [])] := by
  rw [processStep_of_answered rt w cid s h, teacherInserts_append, ← Step.spoken_eq]
  have h1 : teacherInserts (if s.needsBoard then [Call.board s.spoken] else []) = [] := by
    split_ifs <;> rfl
  rw [h1]
  split_ifs
  · rfl
  · simp [teacherInserts]

theorem stepLoop_calls_cons (rt : Runtime) (w : World) (cid : JSString) (s : Step)
    (rest : List Step) :
    (stepLoop rt w cid (s :: rest)).calls
      = (processStep rt w cid s).calls ++
          match (processStep rt w cid s).result with
          | .ok _ => (stepLoop rt w cid rest).calls
          | .threw _ => [] := by
  conv => lhs; unfold stepLoop
  rw [Run.calls_bind]
  congr 1
  cases (processStep rt w cid s).result with
  | threw e => rfl
  | ok s1 =>
    simp only [Run.calls_bind]
    cases (stepLoop rt w cid rest).result <;> simp [Run.pure_eq]

/-- C7, as stated, fails: the loop over one step whose narration is empty
makes no teacher insert; and when the speech request of the second of three
narrated steps is rejected, only the first step is persisted. -/
theorem narration_is_not_always_persisted :
    teacherInserts (stepLoop sampleRuntime sampleWorld (js "default") [silentStep]).calls = []
      ∧ [silentStep].length = 1
      ∧ teacherInserts (stepLoop sampleRuntime muteWorld (js "default") narratedSteps).calls
          = [(js "default", js "First part.")]
      ∧ narratedSteps.length = 3 := by
  decide

/-- C7, amended: the teacher-role inserts of the per-step loop are exactly
one per step whose narration is non-empty, in step order, each with the
chat id and that step's narration, over the steps that precede the first
step with a rejected request, whatever the answered requests return; a
request of a step is rejected when the step needs board synthesis and that
request is rejected, or when its narration is non-empty and the speech
request is rejected; when no request is rejected, these are all the steps
with a non-empty narration. -/
theorem teacher_inserts_of_loop (rt : Runtime) (w : World) (finalChatId : JSString)
    (steps : List Step) :
    teacherInserts (stepLoop rt w finalChatId steps).calls
        = ((steps.takeWhile fun s => !s.rejected w).filter
            fun s => decide (s.spokenText.getD [] ≠ [])).map
              (fun s => (finalChatId, s.spokenText.getD []))
      ∧ ((∀ s ∈ steps, s.rejected w = false) →
          teacherInserts (stepLoop rt w finalChatId steps).calls
            = (steps.filter fun s => decide (s.spokenText.getD [] ≠ [])).map
                (fun s => (finalChatId, s.spokenText.getD [])))
      ∧ ∀ s : Step, s.rejected w = true ↔
          (((s.boardLines = none ∨ s.boardLines = some []) ∧
              40 < (s.spokenText.getD []).length) ∧
            w.boardRejects (s.spokenText.getD []) = true)
          ∨ (s.spokenText.getD [] ≠ [] ∧ w.speechRejects (some (s.spokenText.getD [])) = true) := by
  have main : teacherInserts (stepLoop rt w finalChatId steps).calls
      = ((steps.takeWhile fun s => !s.rejected w).filter
          fun s => decide (s.spokenText.getD [] ≠ [])).map
            (fun s => (finalChatId, s.spokenText.getD [])) := by
    induction steps with
    | nil => rfl
    | cons s rest ih =>
      rw [stepLoop_calls_cons, teacherInserts_append]
      by_cases hr : s.rejected w = true
      · obtain ⟨h1, h2⟩ := processStep_of_rejected rt w finalChatId s hr
        rw [h1, teacherInserts_of_no_insert _ h2]
        simp [List.takeWhile_cons, hr, teacherInserts]
      · have hr2 : s.rejected w = false := by simpa using hr
        rw [teacherInserts_processStep rt w finalChatId s hr2,
          processStep_of_answered rt w finalChatId s hr2]
        simp only [ih, List.takeWhile_cons, hr2, Bool.not_false, if_true, List.filter_cons]
        by_cases hn : s.spokenText.getD [] = [] <;> simp [hn]
  refine ⟨main, ?_, ?_⟩
  · intro h
    rw [main]
    have ht : (steps.takeWhile fun s => !s.rejected w) = steps := by
      rw [List.takeWhile_eq_self_iff]
      intro s hs
      simp [h s hs]
    rw [ht]
  · intro s
    rw [Step.rejected_iff, Step.needsBoard_iff, Step.spoken_eq]

/-- With every request answered, the three narrated steps are persisted in order. -/
theorem teacher_inserts_of_loop_witness :
    (∀ s ∈ narratedSteps, s.rejected sampleWorld = false)
      ∧ teacherInserts (stepLoop sampleRuntime sampleWorld (js "default") narratedSteps).calls
          = [(js "default", js "First part."), (js "default", js "Second part."),
             (js "default", js "Third part.")] :=
  ⟨by decide,
    ((teacher_inserts_of_loop sampleRuntime sampleWorld (js "default") narratedSteps).2.1
      (by decide)).trans (by decide)⟩

/-! ### Malformed replies to the structured request -/

/-- When the path to the content is broken, the content is `undefined`, or
the content is a text `JSON.parse` rejects, `parsed` is the object
`{ steps: [] }` of the `catch` branch. -/
theorem parsedOf_of_failure (rt : Runtime) (d : ReplyBody)
    (h : (∃ e, contentOf d = .threw e) ∨ contentOf d = .ok .absent ∨
      ∃ s, contentOf d = .ok (.text s) ∧ rt.jsonParse s = none) :
    parsedOf rt d = emptySteps := by
  unfold parsedOf
  rcases h with ⟨e, h⟩ | h | ⟨s, h, hs⟩ <;> rw [h]
  · rfl
  · rfl
  · show Outcome.tryCatch (jsonParse rt (.text s)) _ = _
    simp only [jsonParse, hs]
    rfl

/-- Whenever `parsed` is not `null` and has no array-valued `steps`, or has
an empty one, the teach branch answers 200 with no step and calls nothing
after the structured request. -/
theorem teachBranch_degrades (rt : Runtime) (w : World) (req : TeachRequest) (cid : JSString)
    (h : stepsOf (parsedOf rt
      (w.structured req.voiceProfile (historyOf (w.select cid 12)) req.topic)) = .ok []) :
    teachBranch rt w req cid =
      ⟨[.select cid 12, .structured req.voiceProfile (historyOf (w.select cid 12)) req.topic],
        .ok (.steps 200 [])⟩ := by
  rw [teachBranch_eq, h]
  rfl

/-- C8, the failing inputs: when the reply to the structured request has
`content: null`, or has the JSON text `null` as its content, `/teach` raises
a `TypeError` after the structured call instead of answering with an empty
step list. -/
theorem teach_raises_on_null :
    teach sampleRuntime { sampleWorld with structured := fun _ _ _ => replyNull } lesson
        = ⟨[.insert (js "default") (js "student") (js "photosynthesis"),
            .classify (some (js "photosynthesis")),
            .select (js "default") 12,
            .structured (some (js "english")) [] (some (js "photosynthesis"))],
           .threw .typeError⟩
      ∧ (teach sampleRuntime
            { sampleWorld with structured := fun _ _ _ => replyWith (js "null") } lesson).result
          = .threw .typeError := by
  constructor
  · apply congrArg₂ Run.mk <;> decide
  · decide

/-! ### Intent detection -/

theorem matchesAt_iff (p t : JSString) :
    matchesAt p t = true
      ↔ ∃ u post, t = u ++ post ∧ u.map canonicalize = p.map canonicalize := by
  induction p generalizing t with
  | nil =>
    simp only [matchesAt, List.map_nil, List.map_eq_nil_iff, true_iff]
    exact ⟨[], t, rfl, rfl⟩
  | cons a p ih =>
    cases t with
    | nil =>
      simp only [matchesAt, Bool.false_eq_true, false_iff]
      rintro ⟨u, post, h, hu⟩
      have : u = [] := (List.append_eq_nil.mp h.symm).1
      subst this
      simp at hu
    | cons b t =>
      simp only [matchesAt, Bool.and_eq_true, beq_iff_eq, ih]
      constructor
      · rintro ⟨hab, u, post, rfl, hu⟩
        exact ⟨b :: u, post, rfl, by simp [hab, hu]⟩
      · rintro ⟨u, post, h, hu⟩
        cases u with
        | nil => simp at hu
        | cons x u =>
          simp only [List.cons_append, List.cons.injEq] at h
          simp only [List.map_cons, List.cons.injEq] at hu
          obtain ⟨rfl, rfl⟩ := h
          exact ⟨hu.1.symm, u, post, rfl, hu.2⟩

/-- The regular expression test succeeds exactly on the strings that contain
one of the alternatives, letter case ignored. -/
theorem regexTest_iff (alts : List JSString) (t : JSString) :
    regexTest alts t = true ↔ ∃ p ∈ alts, ContainsIgnoringCase p t := by
  unfold ContainsIgnoringCase
  induction t with
  | nil =>
    simp only [regexTest, List.any_eq_true, matchesAt_iff]
    constructor
    · rintro ⟨p, hp, u, post, h, hu⟩
      exact ⟨p, hp, [], u, post, by simpa using h, hu⟩
    · rintro ⟨p, hp, pre, u, post, h, hu⟩
      have h1 := List.append_eq_nil.mp h.symm
      have h2 := List.append_eq_nil.mp h1.1
      exact ⟨p, hp, u, post, by simp [h1.2, h2.2], hu⟩
  | cons c cs ih =>
    simp only [regexTest, Bool.or_eq_true, List.any_eq_true, matchesAt_iff, ih]
    constructor
    · rintro (⟨p, hp, u, post, h, hu⟩ | ⟨p, hp, pre, u, post, h, hu⟩)
      · exact ⟨p, hp, [], u, post, by simpa using h, hu⟩
      · exact ⟨p, hp, c :: pre, u, post, by simp [h], hu⟩
    · rintro ⟨p, hp, pre, u, post, h, hu⟩
      cases pre with
      | nil => exact Or.inl ⟨p, hp, u, post, by simpa using h, hu⟩
      | cons x pre =>
        simp only [List.cons_append, List.cons.injEq] at h
        exact Or.inr ⟨p, hp, pre, u, post, h.2, hu⟩

theorem truthy_getD (text : Option JSString) :
    (if truthy text then text.getD [] else []) = text.getD [] := by
  rcases text with _ | _ | ⟨x, xs⟩ <;> rfl

/-- C9: `detectIntent` returns `teach` with no upstream call exactly when
the lower-cased utterance contains one of the trigger phrases, letter case
ignored; exactly when it contains none, the only call made is one
classification call; a missing utterance is of the second kind. -/
theorem fast_path_iff_trigger (rt : Runtime) (w : World) (text : Option JSString) :
    ((∃ p ∈ triggerPhrases, ContainsIgnoringCase p (rt.toLowerCase (text.getD []))) ↔
        detectIntent rt w text = ⟨[], .ok (js "teach")⟩)
      ∧ ((¬ ∃ p ∈ triggerPhrases, ContainsIgnoringCase p (rt.toLowerCase (text.getD []))) ↔
        (detectIntent rt w text).calls = [.classify text])
      ∧ (detectIntent rt w none).calls = [.classify none] := by
  refine ⟨?_, ?_, ?_⟩
  · rw [detectIntent_eq, truthy_getD, ← regexTest_iff]
    by_cases h : regexTest triggerPhrases (rt.toLowerCase (text.getD [])) = true <;> simp [h]
  · rw [detectIntent_eq, truthy_getD, ← regexTest_iff]
    by_cases h : regexTest triggerPhrases (rt.toLowerCase (text.getD [])) = true <;> simp [h]
  · rw [detectIntent_eq, truthy_getD, Option.getD_none, rt.toLowerCase_nil]
    rfl

/-- The utterance `ok` takes the fast path: `teach`, and no upstream call. -/
theorem fast_path_ok :
    detectIntent sampleRuntime sampleWorld (some (js "ok")) = ⟨[], .ok (js "teach")⟩ :=
  (fast_path_iff_trigger sampleRuntime sampleWorld (some (js "ok"))).1.mp
    ⟨js "ok", by decide, [], js "ok", [], by decide, by decide⟩

theorem trim_eq_nil (s : JSString) (h : ∀ c ∈ s, isTrimmed c = true) : trim s = [] := by
  unfold trim
  rw [List.dropWhile_eq_nil_iff.mpr h]
  rfl

/-- The handler of `/teach`, when the intent is not `chat`. -/
theorem teach_of_not_chat (rt : Runtime) (w : World) (req : TeachRequest)
    (h : (detectIntent rt w req.topic).result ≠ .ok (js "chat")) :
    teach rt w req =
      ⟨(saveMessage (finalChatIdOf req.chatId) (js "student") req.topic).calls
          ++ ((detectIntent rt w req.topic).calls
            ++ (teachBranch rt w req (finalChatIdOf req.chatId)).calls),
        (teachBranch rt w req (finalChatIdOf req.chatId)).result⟩ := by
  have hd := detectIntent_result rt w req.topic
  have hne : ¬ intentOf rt w req.topic = js "chat" := fun e => h (by rw [hd, e])
  unfold teach
  simp only [Run.bind_of_ok _ _ (saveMessage_result _ _ _), Run.bind_of_ok _ _ hd, if_neg hne]

/-- C10, as stated, fails: past the fast path, the answer `Banana` makes
`detectIntent` return `banana`, not `teach`. -/
theorem other_answer_is_returned :
    (detectIntent sampleRuntime bananaWorld (some (js "photosynthesis"))).result
        = .ok (js "banana")
      ∧ js "banana" ≠ js "teach" := by
  decide

/-- C10, amended: for an utterance that misses the fast path, `detectIntent`
returns `teach` when the classification answer is missing, `null`, empty or
made of white space only, and otherwise returns the trimmed, lower-cased
answer itself; and whenever its result is not `chat`, the handler of `/teach`
runs the teach branch: its calls are the student insert, the calls of
`detectIntent` and those of the teach branch, and its outcome is that of the
teach branch. -/
theorem unparsable_answer_teaches (rt : Runtime) (w : World) (req : TeachRequest)
    (hmiss : ¬ ∃ p ∈ triggerPhrases,
      ContainsIgnoringCase p (rt.toLowerCase (req.topic.getD []))) :
    (answerOf (w.classify req.topic) = .absent ∨ answerOf (w.classify req.topic) = .null →
        (detectIntent rt w req.topic).result = .ok (js "teach"))
      ∧ (∀ s, answerOf (w.classify req.topic) = .text s → (∀ c ∈ s, isTrimmed c = true) →
        (detectIntent rt w req.topic).result = .ok (js "teach"))
      ∧ (∀ s, answerOf (w.classify req.topic) = .text s → rt.toLowerCase (trim s) ≠ [] →
        (detectIntent rt w req.topic).result = .ok (rt.toLowerCase (trim s)))
      ∧ ((detectIntent rt w req.topic).result ≠ .ok (js "chat") →
        teach rt w req =
          ⟨(saveMessage (finalChatIdOf req.chatId) (js "student") req.topic).calls
              ++ ((detectIntent rt w req.topic).calls
                ++ (teachBranch rt w req (finalChatIdOf req.chatId)).calls),
            (teachBranch rt w req (finalChatIdOf req.chatId)).result⟩) := by
  have hr : regexTest triggerPhrases
      (rt.toLowerCase (if truthy req.topic then req.topic.getD [] else [])) ≠ true := by
    rw [truthy_getD]
    exact fun h => hmiss ((regexTest_iff _ _).mp h)
  have hd : (detectIntent rt w req.topic).result
      = .ok (classified rt (w.classify req.topic)) := by
    rw [detectIntent_eq, if_neg hr]
  refine ⟨?_, ?_, ?_, teach_of_not_chat rt w req⟩
  · rintro (h | h) <;> rw [hd] <;> unfold classified <;> rw [h]
  · intro s h hs
    rw [hd]
    unfold classified
    rw [h]
    simp only [trim_eq_nil s hs, rt.toLowerCase_nil]
    rfl
  · intro s h hs
    rw [hd]
    unfold classified
    rw [h]
    cases hl : rt.toLowerCase (trim s) with
    | nil => exact absurd hl hs
    | cons x xs => simp [hl, truthy]

/-- The answer `Banana` to a request for a lesson: `detectIntent` returns
`banana`, and the handler runs the teach branch. -/
theorem unparsable_answer_teaches_witness :
    (¬ ∃ p ∈ triggerPhrases,
        ContainsIgnoringCase p (sampleRuntime.toLowerCase (lesson.topic.getD [])))
      ∧ (detectIntent sampleRuntime bananaWorld lesson.topic).result = .ok (js "banana")
      ∧ (teach sampleRuntime bananaWorld lesson).result
          = (teachBranch sampleRuntime bananaWorld lesson (js "default")).result :=
  have hmiss : ¬ ∃ p ∈ triggerPhrases,
      ContainsIgnoringCase p (sampleRuntime.toLowerCase (lesson.topic.getD [])) :=
    fun h => absurd ((regexTest_iff _ _).mpr h) (by decide)
  ⟨hmiss,
    (unparsable_answer_teaches sampleRuntime bananaWorld lesson hmiss).2.2.1
      (js "Banana") (by decide) (by decide),
    by rw [(unparsable_answer_teaches sampleRuntime bananaWorld lesson hmiss).2.2.2
        (by decide)]; rfl⟩

/-! ### The step player -/

theorem typing_eq (content : JSString) (speed : Nat) (n i : Nat) (s : Session)
    (h : i + n = content.length + 1) :
    typing content speed n i s =
      { s with
        now := s.now + n * speed,
        trace := s.trace ++ (List.range' i n).map fun j => Event.text (content.take j) } := by
  induction n generalizing i s with
  | zero => simp [typing]
  | succ n ih =>
    unfold typing
    by_cases hi : i + 1 > content.length
    · have hn : n = 0 := by omega
      subst hn
      simp [hi]
    · simp only [hi, if_false]
      rw [ih (i + 1) _ (by omega)]
      simp only [List.range'_succ, List.map_cons, List.append_assoc, List.singleton_append]
      congr 1
      rw [Nat.succ_mul]; omega

theorem writeLine_eq (rawLine : JSString) (s : Session) :
    writeLine rawLine s =
      { chat := { s.chat with board := s.chat.board ++ [rawLine] },
        now := s.now + lineDuration rawLine,
        trace := s.trace ++ [.board rawLine, .div (detectType rawLine).className]
          ++ (List.range' 0 ((detectType rawLine).content.length + 1)).map
              fun j => Event.text ((detectType rawLine).content.take j) } := by
  unfold writeLine
  simp only []
  rw [typing_eq _ _ _ _ _ (by omega)]
  rfl

theorem mutations_append (a b : List Event) :
    mutations (a ++ b) = mutations a ++ mutations b := by
  induction a with
  | nil => rfl
  | cons e es ih => cases e <;> simp [mutations, ih]

theorem mutations_texts (f : Nat → JSString) (l : List Nat) :
    mutations (l.map fun j => Event.text (f j)) = [] := by
  induction l with
  | nil => rfl
  | cons x xs ih => simpa [mutations] using ih

theorem writeLines_eq (lines : List JSString) (s : Session) :
    (writeLines lines s).chat = { s.chat with board := s.chat.board ++ lines }
      ∧ (writeLines lines s).now = s.now + (lines.map lineDuration).sum
      ∧ mutations (writeLines lines s).trace
          = mutations s.trace ++ lines.map Event.board := by
  induction lines generalizing s with
  | nil => simp [writeLines]
  | cons l ls ih =>
    obtain ⟨h1, h2, h3⟩ := ih (writeLine l s)
    unfold writeLines
    rw [h1, h2, h3, writeLine_eq]
    refine ⟨by simp, by simp [Nat.add_assoc], ?_⟩
    simp [mutations_append, mutations_texts, mutations]

theorem writeLines_chat (lines : List JSString) (s : Session) :
    (writeLines lines s).chat = { s.chat with board := s.chat.board ++ lines } :=
  (writeLines_eq lines s).1

theorem writeLines_now (lines : List JSString) (s : Session) :
    (writeLines lines s).now = s.now + (lines.map lineDuration).sum :=
  (writeLines_eq lines s).2.1

theorem writeLines_mutations (lines : List JSString) (s : Session) :
    mutations (writeLines lines s).trace = mutations s.trace ++ lines.map Event.board :=
  (writeLines_eq lines s).2.2

theorem add_teacher (text : JSString) (s : Session) :
    add (js "teacher") text s =
      { s with
        chat := { s.chat with messages := s.chat.messages ++ [{ role := js "teacher", text := text }] },
        trace := s.trace ++ [.message { role := js "teacher", text := text }] } := by
  unfold add
  have h : ¬ (s.chat.title = js "New chat" ∧ js "teacher" = js "student") :=
    fun h => absurd h.2 (by decide)
  rw [if_neg h]

theorem promiseAll_pair (a b : Promise) : promiseAll [a, b] = max a b := by
  simp [promiseAll]

/-- One iteration of `playSteps`, in closed form. -/
theorem playStep_eq (audio : JSString → Playback) (step : Step) (s : Session) :
    (playStep audio step s).1.chat
        = { s.chat with
            messages := s.chat.messages ++ step.logEntry,
            board := s.chat.board ++ step.boardLines.getD [] }
      ∧ mutations (playStep audio step s).1.trace = mutations s.trace ++ step.writes
      ∧ (playStep audio step s).2.begin = s.now
      ∧ (playStep audio step s).1.now = (playStep audio step s).2.finish
      ∧ (playStep audio step s).2.finish
          = (playStep audio step s).2.channels
              + max (audioDuration audio step) (boardDuration step)
      ∧ (playStep audio step s).2.audioDone ≤ (playStep audio step s).2.finish
      ∧ (playStep audio step s).2.boardDone ≤ (playStep audio step s).2.finish := by
  unfold playStep
  simp only [promiseAll_pair, await]
  rcases hsp : step.spokenText with _ | _ | ⟨x, xs⟩ <;>
  rcases hau : step.audio with _ | _ | ⟨y, ys⟩ <;>
  rcases hbl : step.boardLines with _ | _ | ⟨l, ls⟩ <;>
  simp only [truthy, add_teacher, Step.logEntry, Step.writes, audioDuration, boardDuration,
    hsp, hau, hbl, Option.getD, if_true, if_false, Bool.false_eq_true] <;>
  (try cases hd : (audio (y :: ys)).duration) <;>
  simp [writeLines_chat, writeLines_now, writeLines_mutations, mutations_append, mutations] <;>
  omega

theorem playSteps_chat (audio : JSString → Playback) (steps : List Step) (s : Session) :
    (playSteps audio steps s).1.chat
        = { s.chat with
            messages := s.chat.messages ++ (steps.map Step.logEntry).flatten,
            board := s.chat.board ++ (steps.map fun st => st.boardLines.getD []).flatten }
      ∧ mutations (playSteps audio steps s).1.trace
        = mutations s.trace ++ (steps.map Step.writes).flatten := by
  induction steps generalizing s with
  | nil => simp [playSteps]
  | cons st rest ih =>
    obtain ⟨h1, h2⟩ := ih (playStep audio st s).1
    obtain ⟨p1, p2, -⟩ := playStep_eq audio st s
    unfold playSteps
    simp only []
    rw [h1, h2, p1, p2]
    simp

theorem logEntries_eq (steps : List Step) :
    (steps.map Step.logEntry).flatten
      = (steps.filter fun st => truthy st.spokenText).map
          fun st => { role := js "teacher", text := st.spokenText.getD [] } := by
  induction steps with
  | nil => rfl
  | cons st rest ih =>
    rw [List.map_cons, List.flatten_cons, ih, List.filter_cons]
    unfold Step.logEntry
    cases truthy st.spokenText <;> simp

/-- C4: when `playSteps` completes, the board of the session is its prior
board followed by the board lines of the steps, in step order and in their
own order; the message log is the prior log followed by one teacher entry
per step with a non-empty narration, in step order; and the chat was
mutated step by step, the log entry of a step first and then its board
lines. -/
theorem playSteps_appends (audio : JSString → Playback) (steps : List Step) (s : Session) :
    (playSteps audio steps s).1.chat.board
        = s.chat.board ++ (steps.map fun st => st.boardLines.getD []).flatten
      ∧ (playSteps audio steps s).1.chat.messages
        = s.chat.messages ++ (steps.filter fun st => truthy st.spokenText).map
            (fun st => { role := js "teacher", text := st.spokenText.getD [] })
      ∧ mutations (playSteps audio steps s).1.trace
        = mutations s.trace ++ (steps.map fun st =>
            (if truthy st.spokenText
              then [Event.message { role := js "teacher", text := st.spokenText.getD [] }]
              else [])
            ++ (st.boardLines.getD []).map Event.board).flatten := by
  obtain ⟨h1, h2⟩ := playSteps_chat audio steps s
  refine ⟨by rw [h1], by rw [h1, ← logEntries_eq], h2⟩

theorem playSteps_cons (audio : JSString → Playback) (st : Step) (rest : List Step)
    (s : Session) :
    (playSteps audio (st :: rest) s).2
      = (playStep audio st s).2 :: (playSteps audio rest (playStep audio st s).1).2 := by
  conv => lhs; unfold playSteps

/-- C3: in `playSteps`, step `k + 1` does not begin before both channels of
step `k` have resolved: not before the audio promise and the board promise
of step `k` resolve, hence not before the longer of the audio duration and
the board-typing duration has elapsed since the channels of step `k`
started. -/
theorem next_step_waits_for_both (audio : JSString → Playback) (steps : List Step)
    (s : Session) (k : Nat) (a b : Schedule) (step : Step)
    (hs : steps[k]? = some step)
    (ha : (playSteps audio steps s).2[k]? = some a)
    (hb : (playSteps audio steps s).2[k + 1]? = some b) :
    a.channels + max (audioDuration audio step) (boardDuration step) ≤ b.begin
      ∧ a.audioDone ≤ b.begin ∧ a.boardDone ≤ b.begin := by
  induction steps generalizing s k with
  | nil => simp at hs
  | cons st rest ih =>
    rw [playSteps_cons] at ha hb
    cases k with
    | zero =>
      simp only [List.getElem?_cons_zero, Option.some.injEq] at hs ha
      subst hs ha
      simp only [Nat.zero_add, List.getElem?_cons_succ] at hb
      cases rest with
      | nil => simp [playSteps] at hb
      | cons st2 rest2 =>
        rw [playSteps_cons] at hb
        simp only [List.getElem?_cons_zero, Option.some.injEq] at hb
        obtain ⟨-, -, -, q1, q2, q3, q4⟩ := playStep_eq audio st s
        obtain ⟨-, -, r1, -⟩ := playStep_eq audio st2 (playStep audio st s).1
        rw [← hb, r1, q1]
        exact ⟨by omega, q3, q4⟩
    | succ k =>
      simp only [List.getElem?_cons_succ] at hs ha hb
      exact ih (playStep audio st s).1 k hs ha hb

/-- In the sample run the first step starts its channels at 30; the audio
takes 100 and the typing 40, and the second step begins at 130. -/
theorem next_step_waits_for_both_witness :
    sampleSteps[0]? = some { spokenText := some (js "Hi"), boardLines := some [js "# A"],
                             audio := some (js "data:audio/mp3;base64,UklGRg==") }
      ∧ (playSteps sampleAudio sampleSteps newSession).2[0]?
          = some { begin := 0, channels := 30, audioDone := 130, boardDone := 70, finish := 130 }
      ∧ (playSteps sampleAudio sampleSteps newSession).2[0 + 1]?
          = some { begin := 130, channels := 130, audioDone := 130, boardDone := 130,
                   finish := 130 }
      ∧ 30 + max (audioDuration sampleAudio
              { spokenText := some (js "Hi"), boardLines := some [js "# A"],
                audio := some (js "data:audio/mp3;base64,UklGRg==") })
            (boardDuration
              { spokenText := some (js "Hi"), boardLines := some [js "# A"],
                audio := some (js "data:audio/mp3;base64,UklGRg==") }) ≤ 130 :=
  ⟨by decide, by decide, by decide,
    (next_step_waits_for_both sampleAudio sampleSteps newSession 0
      { begin := 0, channels := 30, audioDone := 130, boardDone := 70, finish := 130 }
      { begin := 130, channels := 130, audioDone := 130, boardDone := 130, finish := 130 }
      { spokenText := some (js "Hi"), boardLines := some [js "# A"],
        audio := some (js "data:audio/mp3;base64,UklGRg==") }
      (by decide) (by decide) (by decide)).1⟩

theorem shownTexts_append (a b : List Event) :
    shownTexts (a ++ b) = shownTexts a ++ shownTexts b := by
  induction a with
  | nil => rfl
  | cons e es ih => cases e <;> simp [shownTexts, ih]

theorem shownTexts_texts (f : Nat → JSString) (l : List Nat) :
    shownTexts (l.map fun j => Event.text (f j)) = l.map f := by
  induction l with
  | nil => rfl
  | cons x xs ih => simpa [shownTexts] using ih

/-- The animation of a line ends on the whole content. -/
theorem writeLine_shows (rawLine : JSString) (s : Session) :
    (shownTexts (writeLine rawLine s).trace).getLast? = some (detectType rawLine).content := by
  rw [writeLine_eq]
  simp only [shownTexts_append, shownTexts_texts, List.range'_concat, List.map_append,
    List.map_cons, List.map_nil, shownTexts]
  rw [← List.append_assoc, List.getLast?_concat]
  simp

theorem isPrefixOf_two (a b : Nat) (line : JSString) :
    [a, b].isPrefixOf line = true ↔ line.take 2 = [a, b] := by
  rcases line with _ | ⟨x, _ | ⟨y, rest⟩⟩
  · simp [List.isPrefixOf]
  · simp [List.isPrefixOf]
  · simp only [List.isPrefixOf, Bool.and_eq_true, beq_iff_eq, and_true, List.take_succ_cons,
      List.take_zero, List.cons.injEq]
    constructor <;> rintro ⟨rfl, rfl⟩ <;> exact ⟨rfl, rfl⟩

theorem js_heading : js "# " = [35, 32] := by decide

theorem js_code : js "> " = [62, 32] := by decide

theorem js_math : js "$ " = [36, 32] := by decide

theorem js_list : js "- " = [45, 32] := by decide

/-- C5, amended: `writeLines` classifies a line by its first two characters;
for a heading, a code line and a formula the content is the line without
its marker, for a list item it is a bullet and a space followed by the line
without its marker, and for any other line it is the whole line; the
animation of a line ends on that content, whole. -/
theorem typed_content_of_line (rest line : JSString) (s : Session) :
    detectType (js "# " ++ rest)
        = { className := js "board-heading", content := rest, speed := 20 }
      ∧ detectType (js "> " ++ rest)
        = { className := js "board-code", content := rest, speed := 5 }
      ∧ detectType (js "$ " ++ rest)
        = { className := js "board-math", content := rest, speed := 20 }
      ∧ detectType (js "- " ++ rest)
        = { className := js "board-list", content := js "• " ++ rest, speed := 20 }
      ∧ (line.take 2 ≠ js "# " ∧ line.take 2 ≠ js "> " ∧ line.take 2 ≠ js "$ " ∧
          line.take 2 ≠ js "- " →
        detectType line = { className := js "board-text", content := line, speed := 20 })
      ∧ (shownTexts (writeLine line s).trace).getLast? = some (detectType line).content := by
  refine ⟨?_, ?_, ?_, ?_, ?_, writeLine_shows line s⟩
  · simp [detectType, js_heading, List.isPrefixOf]
  · simp [detectType, js_heading, js_code, List.isPrefixOf]
  · simp [detectType, js_heading, js_code, js_math, List.isPrefixOf]
  · simp [detectType, js_heading, js_code, js_math, js_list, List.isPrefixOf]
  · rintro ⟨h1, h2, h3, h4⟩
    rw [js_heading] at h1
    rw [js_code] at h2
    rw [js_math] at h3
    rw [js_list] at h4
    unfold detectType
    rw [js_heading, js_code, js_math, js_list]
    rw [if_neg (fun h => h1 ((isPrefixOf_two _ _ _).mp h)),
      if_neg (fun h => h2 ((isPrefixOf_two _ _ _).mp h)),
      if_neg (fun h => h3 ((isPrefixOf_two _ _ _).mp h)),
      if_neg (fun h => h4 ((isPrefixOf_two _ _ _).mp h))]

/-- C5, as stated, fails: the list item `- item` is typed out as `• item`,
which is not the line without its marker, and the marker followed by what
was typed is not the original line. -/
theorem list_item_is_typed_with_bullet :
    detectType (js "- item")
        = { className := js "board-list", content := js "• item", speed := 20 }
      ∧ (shownTexts (writeLine (js "- item") newSession).trace).getLast? = some (js "• item")
      ∧ js "- " ++ js "• item" ≠ js "- item"
      ∧ js "• item" ≠ js "item" := by
  decide

/-- A bare `#` is plain text, and a code line keeps its two newlines. -/
theorem typed_content_of_line_witness :
    ((js "#").take 2 ≠ js "# " ∧ (js "#").take 2 ≠ js "> " ∧ (js "#").take 2 ≠ js "$ " ∧
        (js "#").take 2 ≠ js "- ")
      ∧ detectType (js "#") = { className := js "board-text", content := js "#", speed := 20 }
      ∧ detectType (js "> " ++ js "function f()\x7b\n  return 1;\n\x7d")
        = { className := js "board-code", content := js "function f()\x7b\n  return 1;\n\x7d",
            speed := 5 } :=
  ⟨by decide,
    (typed_content_of_line [] (js "#") newSession).2.2.2.2.1 (by decide),
    (typed_content_of_line (js "function f()\x7b\n  return 1;\n\x7d") [] newSession).2.1⟩

/-- C6, the failing input: on the persisted board `$ E = mc^2`, `- item`
the function `renderBoard` renders both lines as plain text with their
markers, where `writeLines` renders a formula `E = mc^2` and a list item
`• item`. -/
theorem renderBoard_skips_formula_and_list :
    renderBoard (some { id := js "1700000000000", title := js "Physics", messages := [],
                        board := [js "$ E = mc^2", js "- item"] })
        = [{ className := js "board-text", text := js "$ E = mc^2" },
           { className := js "board-text", text := js "- item" }]
      ∧ detectType (js "$ E = mc^2")
        = { className := js "board-math", content := js "E = mc^2", speed := 20 }
      ∧ detectType (js "- item")
        = { className := js "board-list", content := js "• item", speed := 20 } := by
  decide

/-- On a line that starts with neither the formula nor the list marker,
`renderBoard` and `writeLines` agree on the class and on the text. -/
theorem renderLine_agrees (line : JSString)
    (h : line.take 2 ≠ js "$ " ∧ line.take 2 ≠ js "- ") :
    renderLine line
      = { className := (detectType line).className, text := (detectType line).content } := by
  obtain ⟨h3, h4⟩ := h
  rw [js_math] at h3
  rw [js_list] at h4
  unfold renderLine detectType
  rw [js_math, js_list]
  rw [if_neg (fun h => h3 ((isPrefixOf_two _ _ _).mp h)),
    if_neg (fun h => h4 ((isPrefixOf_two _ _ _).mp h))]
  split_ifs <;> rfl

/-! ### The image endpoint without an image -/

/-- C11, as stated, fails: a `/teach-image` request without an image file
whose body no parser has set is answered with status 500, not 400: the
destructuring of line 280 raises inside the `try`, before the file check. -/
theorem teachImage_without_body :
    teachImage sampleRuntime sampleWorld { body := none, file := none }
      = ⟨[], .ok (.error 500 (js "Internal server error during image analysis."))⟩ := by
  apply congrArg₂ Run.mk <;> decide

/-- C11, amended: a `/teach-image` request that carries no image file is
answered at once with an error message, not with steps, and the handler
calls nothing: no insert into the store, no history query, no request to
the upstream model, to board synthesis or to the speech synthesizer.  The
status is 400 when the request has a body, whatever its question, voice
profile and chat id, and 500 when its body is missing. -/
theorem teachImage_without_file (rt : Runtime) (w : World) :
    (∀ question voiceProfile chatId : Option JSString,
        teachImage rt w
            { body := some { question := question, voiceProfile := voiceProfile,
                             chatId := chatId },
              file := none }
          = ⟨[], .ok (.error 400 (js "No image file uploaded."))⟩)
      ∧ teachImage rt w { body := none, file := none }
          = ⟨[], .ok (.error 500 (js "Internal server error during image analysis."))⟩ := by
  constructor
  · intro question voiceProfile chatId
    unfold teachImage teachImageBody
    rfl
  · unfold teachImage teachImageBody
    rfl

/-! ### The dialogue history -/

/-- C12: `loadRecentMessages` makes one query, with the chat id and the
limit; when the store returns no data the result is the empty list;
otherwise the result has the length of the data and is its reverse, the
row at position `i` from the end becoming the message at position `i`, with
role `user` for a student row and `assistant` for any other, and with the
text unchanged.  The callers pass the default limit, 12. -/
theorem loadRecentMessages_reverses (w : World) (chatId : JSString) (limit : Nat) :
    (loadRecentMessages w chatId limit).calls = [.select chatId limit]
      ∧ (w.select chatId limit = none →
          (loadRecentMessages w chatId limit).result = .ok [])
      ∧ (∀ data, w.select chatId limit = some data →
          ∃ out, (loadRecentMessages w chatId limit).result = .ok out
            ∧ out.length = data.length
            ∧ out = data.reverse.map (fun m =>
                ({ role := if m.role = js "student" then js "user" else js "assistant",
                   content := m.text } : HistoryMsg))
            ∧ ∀ i m, data[data.length - 1 - i]? = some m → i < data.length →
                out[i]? = some
                  { role := if m.role = js "student" then js "user" else js "assistant",
                    content := m.text })
      ∧ (∀ topic profile, (chatReply w topic profile chatId).calls.head?
          = some (.select chatId 12)) := by
  rw [loadRecentMessages_eq]
  refine ⟨rfl, ?_, ?_, ?_⟩
  · intro h
    rw [h]
    rfl
  · intro data h
    rw [h]
    refine ⟨_, rfl, by simp [historyOf], rfl, ?_⟩
    intro i m hm hi
    simp only [historyOf]
    rw [List.getElem?_map, List.getElem?_reverse hi, hm]
    rfl
  · intro topic profile
    unfold chatReply
    rw [loadRecentMessages_eq]
    rfl

/-- Two stored rows, the teacher's answer first: the history is the
student's question as `user`, then the answer as `assistant`. -/
theorem loadRecentMessages_reverses_witness :
    historyWorld.select (js "default") 12 = some storedRows
      ∧ ∃ out, (loadRecentMessages historyWorld (js "default") 12).result = .ok out
          ∧ out.length = 2
          ∧ out = [{ role := js "user", content := js "photosynthesis" },
                   { role := js "assistant", content := js "Plants make food from light." }] :=
  ⟨by decide,
    match (loadRecentMessages_reverses historyWorld (js "default") 12).2.2.1 storedRows
      (by decide) with
    | ⟨out, h1, h2, h3, _⟩ => ⟨out, h1, h2, by rw [h3]; decide⟩⟩

end AITeacher
